import Mathlib

/-!
Verification of the Boxlib/Orion I/O handlers (`yt/frontends/boxlib/io.py`)

A shallow embedding of the selective binary decoder for block-structured AMR
output: the fluid field stream reader (`IOHandlerBoxlib._read_fluid_selection`
and `_read_chunk_data`), the particle record decoder (`_read_particles`), the
particle union resolver (`_read_particle_selection`), and the Orion text
sink/star particle reader (`IOHandlerOrion`).

Python dictionaries are embedded as association lists, numpy arrays of float64
as `List ℚ` (exact arithmetic in place of IEEE doubles — the decoder performs
only additions and halving, which the spec states exactly), binary files as
item streams with an explicit byte cursor, and Python exceptions as an error
type threaded through `Except`.
-/

set_option maxHeartbeats 1000000

namespace Boxlib

/-- Python exceptions that the embedded code can raise. -/
inductive PyErr where
  | notImplementedError
  | keyError
  | nameError
  | runtimeError
  | indexError
  | valueError
  deriving Repr, DecidableEq

/-- A yt field key `(ftype, fname)`, e.g. `("boxlib", "density")`. -/
abbrev FieldKey := String × String

section AssocList

variable {α : Type _} {β : Type _} [DecidableEq α]

/-- Python `d[k]` lookup on a dict embedded as an association list. -/
def alookup (k : α) : List (α × β) → Option β
  | [] => none
  | (a, b) :: t => if a = k then some b else alookup k t

/-- Python `d[k] = v`: replace the first binding of `k`, or append a new one. -/
def dictInsert (k : α) (v : β) : List (α × β) → List (α × β)
  | [] => [(k, v)]
  | (a, b) :: t => if a = k then (k, v) :: t else (a, b) :: dictInsert k v t

/-- Python `d.pop(k)`: return the value bound to `k` together with the
remaining dict, or `none` (a `KeyError`) when `k` is absent. -/
def apop (k : α) : List (α × β) → Option (β × List (α × β))
  | [] => none
  | (a, b) :: t =>
    if a = k then some (b, t)
    else (apop k t).map (fun p => (p.1, (a, b) :: p.2))

/-- Python `d.pop(k)` with the key known present, discarding the value. -/
def eraseKey (k : α) (l : List (α × β)) : List (α × β) :=
  match apop k l with
  | none => l
  | some (_, l') => l'

end AssocList

/-! ## Data model: grids, chunks, selectors, dataset index -/

/-- A grid descriptor (`GridDescriptor` of the spec): the fields of the
external grid object that `io.py` reads — `id`, `filename` (nullable),
`_offset` / `_get_offset` (the byte offset of its data block), the product of
`ActiveDimensions`, and the vertical edges used for 2-d particle decoding. -/
structure Grid where
  id : Nat
  filename : Option String
  offset : Nat
  dims : Nat × Nat × Nat
  leftEdgeZ : ℚ
  rightEdgeZ : ℚ
  deriving Repr, DecidableEq

/-- Model of `grid.ActiveDimensions.prod()`. -/
def Grid.cellCount (g : Grid) : Nat := g.dims.1 * g.dims.2.1 * g.dims.2.2

/-- A chunk: an ordered batch of grids (`chunk.objs`). -/
structure Chunk where
  objs : List Grid
  deriving Repr, DecidableEq

/-- The selector collaborator (spec §6).  `className` models Python
`selector.__class__.__name__`; `selVals` models the external
`g.select(selector, ds, buf, ind)` contract: the selected cell values of a
grid's data block, in selection order, written into the destination buffer;
`pointMask` models `selector.select_points(x, y, z, radius)`. -/
structure Selector where
  className : String
  count : Grid → Nat
  selVals : Grid → List ℚ → List ℚ
  pointMask : List ℚ → List ℚ → List ℚ → ℚ → Option (List Bool)

/-- The slice of `self.ds.index` that the fluid reader consults:
`field_order` and `_dtype.itemsize` (bytes per record, `bpr`). -/
structure DsIndex where
  fieldOrder : List FieldKey
  bpr : Nat

/-- The file system: maps a file name to its content, a stream of fluid items
(each `bpr` bytes wide on disk). -/
abbrev FS := String → List ℚ

/-- A destination buffer (`np.empty(size, dtype="float64")`). -/
abbrev Buf := List ℚ

/-- Write the values `vs` into `buf` starting at index `ind`
(out-of-range writes are dropped, as `List.set` is). -/
def writeAt (buf : Buf) (ind : Nat) : List ℚ → Buf
  | [] => buf
  | v :: vs => writeAt (buf.set ind v) (ind + 1) vs

/-- Model of `g.select(selector, ds, rv[field], ind)` (spec §6): write the selected
values into the buffer at the running index and return the count written. -/
def gridSelect (sel : Selector) (g : Grid) (ds : List ℚ) (buf : Buf) (ind : Nat) :
    Buf × Nat :=
  (writeAt buf ind (sel.selVals g ds), (sel.selVals g ds).length)

/-! ## `_read_chunk_data`: grouping, sorting and the sequential field walk -/

/-- Model of `np.fromfile(f, dtype, count)` at byte position `pos` of a file whose
items are `bpr` bytes wide: the next `count` items (fewer when the file is
short; the data is assumed present, spec §7). -/
def readItems (content : List ℚ) (pos : Int) (bpr : Nat) (count : Nat) : List ℚ :=
  (content.drop (pos / (bpr : Int)).toNat).take count

/-- State of the per-grid field walk: the per-grid dict `data[grid.id]` under
construction, the file cursor `f.tell()`, and the running `local_offset`. -/
structure GState where
  out : List (FieldKey × List ℚ)
  cursor : Int
  localOffset : Int
  deriving Repr, DecidableEq

/-- One iteration of `for field in self.ds.index.field_order`: a requested
field seeks forward by `local_offset` (relative to the cursor), reads
`count` items and resets `local_offset` to zero; an unrequested field adds
`count * bpr` bytes to `local_offset`. -/
def fieldStep (content : List ℚ) (bpr count : Nat) (fields : List FieldKey)
    (st : GState) (field : FieldKey) : GState :=
  if field ∈ fields then
    let cur := st.cursor + st.localOffset
    let v := readItems content cur bpr count
    { out := dictInsert field v st.out,
      cursor := cur + (count * bpr : Nat),
      localOffset := 0 }
  else
    { st with localOffset := st.localOffset + (count * bpr : Nat) }

/-- The body of the per-grid loop of `_read_chunk_data`: starting from
`local_offset = grid._get_offset(f) - f.tell()`, walk the field order table.
(The `reshape(..., order='F')` of the source is a pure re-indexing of the flat
block and is kept flat here.) -/
def readGridBlock (content : List ℚ) (bpr : Nat) (fieldOrder fields : List FieldKey)
    (g : Grid) (cursor : Int) : GState :=
  fieldOrder.foldl (fieldStep content bpr g.cellCount fields)
    { out := [], cursor := cursor, localOffset := (g.offset : Int) - cursor }

/-- The per-file loop of `_read_chunk_data`: read each grid's block in turn,
threading the cursor, and store `data[grid.id]`. -/
def readFileGrids (content : List ℚ) (bpr : Nat) (fieldOrder fields : List FieldKey) :
    List Grid → List (Nat × List (FieldKey × List ℚ)) → Int →
      List (Nat × List (FieldKey × List ℚ)) × Int
  | [], data, cursor => (data, cursor)
  | g :: gs, data, cursor =>
    let st := readGridBlock content bpr fieldOrder fields g cursor
    readFileGrids content bpr fieldOrder fields gs (dictInsert g.id st.out data) st.cursor

/-- Model of `grids_by_file[g.filename].append(g)`: append `g` to its file's group,
creating the group at the end on first occurrence (dict insertion order). -/
def addToGroup (fn : String) (g : Grid) : List (String × List Grid) → List (String × List Grid)
  | [] => [(fn, [g])]
  | (a, l) :: t => if a = fn then (a, l ++ [g]) :: t else (a, l) :: addToGroup fn g t

/-- The `grids_by_file` defaultdict: grids with a null filename are skipped. -/
def groupByFile (gs : List Grid) : List (String × List Grid) :=
  gs.foldl (fun acc g =>
    match g.filename with
    | none => acc
    | some fn => addToGroup fn g acc) []

/-- Stable insertion into a list sorted by ascending `_offset`. -/
def insertOff (g : Grid) : List Grid → List Grid
  | [] => [g]
  | h :: t => if g.offset < h.offset then g :: h :: t else h :: insertOff g t

/-- Model of `grids.sort(key = lambda a: a._offset)`. -/
def sortByOffset (gs : List Grid) : List Grid :=
  gs.foldr insertOff []

/-- Model of `IOHandlerBoxlib._read_chunk_data`: group the chunk's grids by file, sort
each group by offset, and read each file once from cursor 0. -/
def read_chunk_data (fs : FS) (idx : DsIndex) (c : Chunk) (fields : List FieldKey) :
    List (Nat × List (FieldKey × List ℚ)) :=
  if c.objs = [] then []
  else
    (groupByFile c.objs).foldl (fun data p =>
      (readFileGrids (fs p.1) idx.bpr idx.fieldOrder fields (sortByOffset p.2) data 0).1) []

/-! ## `_read_fluid_selection` -/

/-- The `rv` dict of `_read_fluid_selection`. -/
abbrev RV := List (FieldKey × Buf)

/-- The inner `for field in fields` loop of `_read_fluid_selection`:
`ds = data[g.id].pop(field)` (a `KeyError` when absent), then
`nd = g.select(selector, ds, rv[field], ind)`.  Returns the mutated per-grid
dict, the mutated `rv`, and the Python variable `nd` (unset = `none`). -/
def fluidFields (sel : Selector) (g : Grid) :
    List FieldKey → List (FieldKey × List ℚ) → RV → Nat → Option Nat →
      Except PyErr (List (FieldKey × List ℚ) × RV × Option Nat)
  | [], gdata, rv, _, nd? => .ok (gdata, rv, nd?)
  | f :: rest, gdata, rv, ind, _ =>
    match apop f gdata with
    | none => .error .keyError
    | some (ds, gdata') =>
      match alookup f rv with
      | none => .error .keyError
      | some buf =>
        let (buf', nd) := gridSelect sel g ds buf ind
        fluidFields sel g rest gdata' (dictInsert f buf' rv) ind (some nd)

/-- The `for g in chunk.objs` loop: run the field loop at the current global
index, then `ind += nd` (a `NameError` when `nd` was never assigned) and
`data.pop(g.id)` (a `KeyError` when absent, which is checked first at
`data[g.id]`). -/
def fluidGrids (sel : Selector) (fields : List FieldKey) :
    List Grid → List (Nat × List (FieldKey × List ℚ)) → RV → Nat → Option Nat →
      Except PyErr (RV × Nat × Option Nat)
  | [], _, rv, ind, nd? => .ok (rv, ind, nd?)
  | g :: gs, data, rv, ind, nd? =>
    match alookup g.id data with
    | none => .error .keyError
    | some gdata =>
      match fluidFields sel g fields gdata rv ind nd? with
      | .error e => .error e
      | .ok (_, rv', nd?') =>
        match nd?' with
        | none => .error .nameError
        | some nd =>
          fluidGrids sel fields gs (eraseKey g.id data) rv' (ind + nd) (some nd)

/-- The `for chunk in chunks` loop: `data = self._read_chunk_data(chunk, fields)`
then the grid loop. -/
def fluidChunks (fs : FS) (idx : DsIndex) (sel : Selector) (fields : List FieldKey) :
    List Chunk → RV → Nat → Option Nat → Except PyErr (RV × Nat × Option Nat)
  | [], rv, ind, nd? => .ok (rv, ind, nd?)
  | c :: cs, rv, ind, nd? =>
    match fluidGrids sel fields c.objs (read_chunk_data fs idx c fields) rv ind nd? with
    | .error e => .error e
    | .ok (rv', ind', nd?') => fluidChunks fs idx sel fields cs rv' ind' nd?'

/-- Model of `IOHandlerBoxlib._read_fluid_selection`: reject any non-"boxlib" field
type with `NotImplementedError`, allocate one `size`-long float64 buffer per
field, and fill them chunk by chunk. -/
def read_fluid_selection (fs : FS) (idx : DsIndex) (chunks : List Chunk)
    (sel : Selector) (fields : List FieldKey) (size : Nat) : Except PyErr RV :=
  if fields.any (fun fk => fk.1 ≠ "boxlib") then .error .notImplementedError
  else
    let rv0 : RV := fields.map (fun f => (f, List.replicate size (0 : ℚ)))
    match fluidChunks fs idx sel fields chunks rv0 0 none with
    | .error e => .error e
    | .ok (rv, _, _) => .ok rv

/-! ## `_read_particles`: the particle record decoder -/

/-- The value a call of Python `_read_particles` produces: a numpy array, or
the implicit `None` when control falls off the end of the function (the field
name matched neither header table). -/
inductive PResult where
  | arr (xs : List ℚ)
  | pyNone
  deriving Repr, DecidableEq

/-- Model of `grid._pdata[ftype]`: number of particles, particle file name and the
byte offset of the particle set's int block. -/
structure PData where
  numberOfParticles : Nat
  particle_filename : String
  offset : Nat
  deriving Repr, DecidableEq

/-- The content of a particle file at a recorded offset, per the layout of
spec §6: `count × num_int` integers (array-of-structs), immediately followed
by `count × num_real` reals.  `f.seek(offset + particle_int_dtype.itemsize *
npart)` of the source lands exactly at the start of `reals` (the compound int
dtype's `itemsize` is one particle's whole int record). -/
structure PBlocks where
  ints : List ℚ
  reals : List ℚ
  deriving Repr, DecidableEq

/-- Model of `self.ds.index.particle_headers[ftype]`. -/
structure ParticleHeader where
  known_int_fields : List (Nat × String)
  known_real_fields : List (Nat × String)
  num_int : Nat
  num_real : Nat
  deriving Repr, DecidableEq

/-- The dataset-side context the particle reader consults: particle unions,
particle headers, dimensionality, per-grid `_pdata` (keyed by grid id and
particle type), and the particle files. -/
structure PCtx where
  unions : String → Option (List String)
  particle_headers : String → ParticleHeader
  dimensionality : Nat
  pdata : Nat → String → PData
  pfiles : String → Nat → PBlocks

/-- Strided slice `l[start::stride]` of numpy. -/
def strideSlice (l : List ℚ) (start stride : Nat) : List ℚ :=
  ((l.drop start).enum.filter (fun p => p.1 % stride = 0)).map (·.2)

/-- Boolean-mask indexing `data[mask]` of numpy. -/
def applyMask (data : List ℚ) (mask : List Bool) : List ℚ :=
  (data.zip mask).filterMap (fun p => if p.2 then some p.1 else none)

/-- The z-coordinate block that both decode branches of `_read_particles`
duplicate verbatim: in a 2-d dataset, `z = np.ones_like(y)` scaled by
`0.5*(grid.LeftEdge[2] + grid.RightEdge[2])`; otherwise `rdata[2::num_real]`. -/
def posZ (dim : Nat) (g : Grid) (rdata : List ℚ) (num_real : Nat) : List ℚ :=
  if dim = 2 then
    (strideSlice rdata 1 num_real).map
      (fun _ => 1 * ((1 / 2 : ℚ) * (g.leftEdgeZ + g.rightEdgeZ)))
  else strideSlice rdata 2 num_real

/-- Model of `IOHandlerBoxlib._read_particles`: decode one field of one grid's
particle set, applying point selection to the deinterleaved positions. -/
def read_particles (ctx : PCtx) (g : Grid) (sel : Selector) (ftype name : String) :
    PResult :=
  let pd := ctx.pdata g.id ftype
  let npart := pd.numberOfParticles
  if npart = 0 then .arr []
  else
    let fn := pd.particle_filename
    let offset := pd.offset
    let pheader := ctx.particle_headers ftype
    let int_fnames := pheader.known_int_fields.map (·.2)
    if name ∈ int_fnames then
      -- integer-field branch
      let ind := int_fnames.indexOf name
      let rdata := (ctx.pfiles fn offset).reals.take (pheader.num_real * npart)
      let x := strideSlice rdata 0 pheader.num_real
      let y := strideSlice rdata 1 pheader.num_real
      let z := posZ ctx.dimensionality g rdata pheader.num_real
      match sel.pointMask x y z 0 with
      | none => .arr []
      | some mask =>
        let idata := (ctx.pfiles fn offset).ints.take (pheader.num_int * npart)
        let data := strideSlice idata ind pheader.num_int
        .arr (applyMask data mask)
    else
      let real_fnames := pheader.known_real_fields.map (·.2)
      if name ∈ real_fnames then
        -- real-field branch
        let ind := real_fnames.indexOf name
        let rdata := (ctx.pfiles fn offset).reals.take (pheader.num_real * npart)
        let x := strideSlice rdata 0 pheader.num_real
        let y := strideSlice rdata 1 pheader.num_real
        let z := posZ ctx.dimensionality g rdata pheader.num_real
        match sel.pointMask x y z 0 with
        | none => .arr []
        | some mask =>
          let data := strideSlice rdata ind pheader.num_real
          .arr (applyMask data mask)
      else .pyNone

/-! ## `_read_particle_selection`: the particle union resolver -/

/-- The `rv` dict of the particle selection readers. -/
abbrev RVp := List (FieldKey × List ℚ)

/-- Model of `np.concatenate((data, rv[ftype, fname]))` with a fresh `_read_particles`
result: `None` in the tuple is a fatal `np.concatenate` failure, modelled as
a `ValueError`. -/
def prependResult (r : PResult) (ft fn : String) (rv : RVp) : Except PyErr RVp :=
  match r with
  | .pyNone => .error .valueError
  | .arr d =>
    match alookup (ft, fn) rv with
    | none => .error .keyError
    | some old => .ok (dictInsert (ft, fn) (d ++ old) rv)

/-- The union fan-out: `for subtype in unions[ftype]`, prepending each
subtype's per-grid array to the accumulator. -/
def pselSubtypes (ctx : PCtx) (sel : Selector) (g : Grid) (ft fn : String) :
    List String → RVp → Except PyErr RVp
  | [], rv => .ok rv
  | s :: ss, rv =>
    match prependResult (read_particles ctx g sel s fn) ft fn rv with
    | .error e => .error e
    | .ok rv' => pselSubtypes ctx sel g ft fn ss rv'

/-- The `for ftype, fname in fields` loop of `_read_particle_selection`. -/
def pselFields (ctx : PCtx) (sel : Selector) (g : Grid) :
    List FieldKey → RVp → Except PyErr RVp
  | [], rv => .ok rv
  | (ft, fn) :: rest, rv =>
    match ctx.unions ft with
    | some subtypes =>
      match pselSubtypes ctx sel g ft fn subtypes rv with
      | .error e => .error e
      | .ok rv' => pselFields ctx sel g rest rv'
    | none =>
      match prependResult (read_particles ctx g sel ft fn) ft fn rv with
      | .error e => .error e
      | .ok rv' => pselFields ctx sel g rest rv'

/-- The `for grid in chunk.objs` loop. -/
def pselGrids (ctx : PCtx) (sel : Selector) (fields : List FieldKey) :
    List Grid → RVp → Except PyErr RVp
  | [], rv => .ok rv
  | g :: gs, rv =>
    match pselFields ctx sel g fields rv with
    | .error e => .error e
    | .ok rv' => pselGrids ctx sel fields gs rv'

/-- The `for chunk in chunks` loop. -/
def pselChunks (ctx : PCtx) (sel : Selector) (fields : List FieldKey) :
    List Chunk → RVp → Except PyErr RVp
  | [], rv => .ok rv
  | c :: cs, rv =>
    match pselGrids ctx sel fields c.objs rv with
    | .error e => .error e
    | .ok rv' => pselChunks ctx sel fields cs rv'

/-- Model of `IOHandlerBoxlib._read_particle_selection`: initialise
`rv = {f: np.array([]) for f in fields}` and accumulate by prepending. -/
def read_particle_selection (ctx : PCtx) (chunks : List Chunk) (sel : Selector)
    (fields : List FieldKey) : Except PyErr RVp :=
  pselChunks ctx sel fields chunks (fields.map (fun f => (f, ([] : List ℚ))))

/-! ## The Orion text sink/star particle reader (`IOHandlerOrion`) -/

/-- Orion grid descriptor: particle count and the grid's pre-associated line
numbers in the particle text file. -/
structure OGrid where
  numberOfParticles : Nat
  particle_line_numbers : List Nat
  deriving Repr, DecidableEq

/-- An Orion chunk. -/
structure OChunk where
  objs : List OGrid
  deriving Repr, DecidableEq

/-- Environment of the Orion reader: the dataset output directory, whether
`StarParticles` exists, the text file contents (as lines), the field-name →
column-index table `parse_orion_sinks` computes from a file, and the Python
`np.float` string-to-float parse. -/
structure OrionCtx where
  output_dir : String
  star_exists : Bool
  file_lines : String → List String
  sink_table : String → String → Nat
  parse_float : String → ℚ

/-- Mutable state of an `IOHandlerOrion` instance: the `_cached_lines`
attribute (absent = `none`), the stored-but-never-consulted
`_particle_field_index` attribute, and an instrumentation counter of full
file reads (spec §8: "verified by read-count instrumentation"). -/
structure OrionState where
  cached_lines : Option (List String)
  pfi_attr : Option (String → Nat)
  reads : Nat

/-- The `particle_filename` property: `StarParticles` if present, else
`SinkParticles` (an existence stat, not a file read). -/
def orion_particle_filename (ctx : OrionCtx) : String :=
  if ctx.star_exists then ctx.output_dir ++ "/StarParticles"
  else ctx.output_dir ++ "/SinkParticles"

/-- Modelled from the spec: `parse_orion_sinks` (imported from the chombo
frontend; not part of this source tree) parses the field-name → column-index
table "from the file's header metadata" (spec §4.4), reading the particle
text file to do so — counted by the instrumentation. -/
def parse_orion_sinks (ctx : OrionCtx) (fn : String) (st : OrionState) :
    (String → Nat) × OrionState :=
  (ctx.sink_table fn, { st with reads := st.reads + 1 })

/-- The `particle_field_index` property: recompute via `parse_orion_sinks`
on every access, then store the result in `_particle_field_index` (the stored
attribute is never consulted before recomputing). -/
def particle_field_index (ctx : OrionCtx) (st : OrionState) :
    (String → Nat) × OrionState :=
  let (index, st') := parse_orion_sinks ctx (orion_particle_filename ctx) st
  (index, { st' with pfi_attr := some index })

/-- The nested `read(line, field)` helper of `IOHandlerOrion._read_particles`:
`np.float(line.strip().split(' ')[self.particle_field_index[field]])`.
Each call re-enters the `particle_field_index` property. -/
def orion_read_entry (ctx : OrionCtx) (line field : String) (st : OrionState) :
    ℚ × OrionState :=
  let (pfi, st') := particle_field_index ctx st
  (ctx.parse_float (((line.trim).splitOn " ").getD (pfi field) ""), st')

/-- Model of `for num in grid._particle_line_numbers: particles.append(read(lines[num], field))`. -/
def orion_read_lines (ctx : OrionCtx) (lines : List String) (field : String) :
    List Nat → List ℚ → OrionState → List ℚ × OrionState
  | [], acc, st => (acc, st)
  | n :: ns, acc, st =>
    let (v, st') := orion_read_entry ctx (lines.getD n "") field st
    orion_read_lines ctx lines field ns (acc ++ [v]) st'

/-- Model of `IOHandlerOrion._read_particles`: the `try: lines = self._cached_lines`
branch on a cache hit; on `AttributeError`, `f.readlines()` the particle file
(one full read), cache the lines, and proceed identically. -/
def orion_read_particles (ctx : OrionCtx) (g : OGrid) (field : String)
    (st : OrionState) : List ℚ × OrionState :=
  if g.numberOfParticles = 0 then ([], st)
  else
    match st.cached_lines with
    | some lines => orion_read_lines ctx lines field g.particle_line_numbers [] st
    | none =>
      let fn := orion_particle_filename ctx
      let lines := ctx.file_lines fn
      let st' := { st with cached_lines := some lines, reads := st.reads + 1 }
      orion_read_lines ctx lines field g.particle_line_numbers [] st'

/-- The fast path of `IOHandlerOrion._read_particle_selection`:
`rv[ftype, fname] = self._read_particles(grid, fname)` for each field. -/
def opselFast (ctx : OrionCtx) (g : OGrid) :
    List FieldKey → RVp → OrionState → RVp × OrionState
  | [], rv, st => (rv, st)
  | (ft, fn) :: rest, rv, st =>
    let (data, st') := orion_read_particles ctx g fn st
    opselFast ctx g rest (dictInsert (ft, fn) data rv) st'

/-- The general-path field loop: prepend each grid's array,
`rv[ftype, fname] = np.concatenate((data, rv[ftype, fname]))`. -/
def opselFieldsG (ctx : OrionCtx) (g : OGrid) :
    List FieldKey → RVp → OrionState → Except PyErr RVp × OrionState
  | [], rv, st => (.ok rv, st)
  | (ft, fn) :: rest, rv, st =>
    let (data, st') := orion_read_particles ctx g fn st
    match alookup (ft, fn) rv with
    | none => (.error .keyError, st')
    | some old => opselFieldsG ctx g rest (dictInsert (ft, fn) (data ++ old) rv) st'

/-- The general-path grid loop. -/
def opselGridsG (ctx : OrionCtx) (fields : List FieldKey) :
    List OGrid → RVp → OrionState → Except PyErr RVp × OrionState
  | [], rv, st => (.ok rv, st)
  | g :: gs, rv, st =>
    match opselFieldsG ctx g fields rv st with
    | (.error e, st') => (.error e, st')
    | (.ok rv', st') => opselGridsG ctx fields gs rv' st'

/-- The general-path chunk loop. -/
def opselChunksG (ctx : OrionCtx) (fields : List FieldKey) :
    List OChunk → RVp → OrionState → Except PyErr RVp × OrionState
  | [], rv, st => (.ok rv, st)
  | c :: cs, rv, st =>
    match opselGridsG ctx fields c.objs rv st with
    | (.error e, st') => (.error e, st')
    | (.ok rv', st') => opselChunksG ctx fields cs rv' st'

/-- Model of `IOHandlerOrion._read_particle_selection`: on a `GridSelector`,
`chunks[0]` is indexed first (an `IndexError` on an empty chunk list), then
`len(chunks) == len(chunks[0].objs) == 1` is required on pain of
`RuntimeError`, and the single grid is read directly; otherwise the general
prepending iteration runs, never consulting the selector. -/
def orion_read_particle_selection (ctx : OrionCtx) (chunks : List OChunk)
    (sel : Selector) (fields : List FieldKey) (st : OrionState) :
    Except PyErr RVp × OrionState :=
  if sel.className = "GridSelector" then
    match chunks with
    | [] => (.error .indexError, st)
    | c0 :: _ =>
      if chunks.length = c0.objs.length ∧ c0.objs.length = 1 then
        match c0.objs with
        | g :: _ =>
          let (rv, st') := opselFast ctx g fields [] st
          (.ok rv, st')
        | [] => (.error .indexError, st)
      else (.error .runtimeError, st)
  else
    opselChunksG ctx fields chunks (fields.map (fun f => (f, ([] : List ℚ)))) st

/-- Every per-grid dict stored in a chunk-data map binds every requested
field (the fluid loop pops each of them). -/
def GoodData (fields : List FieldKey) (data : List (Nat × List (FieldKey × List ℚ))) : Prop :=
  ∀ p ∈ data, ∀ f ∈ fields, (alookup f p.2).isSome

/-! ## General helper lemmas -/

section AssocLemmas

variable {α : Type _} {β : Type _} [DecidableEq α]

@[simp] theorem alookup_nil (k : α) : alookup k ([] : List (α × β)) = none := rfl

theorem alookup_cons (k : α) (a : α) (b : β) (t : List (α × β)) :
    alookup k ((a, b) :: t) = if a = k then some b else alookup k t := rfl

@[simp] theorem alookup_dictInsert_self (k : α) (v : β) (l : List (α × β)) :
    alookup k (dictInsert k v l) = some v := by
  induction l with
  | nil => simp [dictInsert, alookup]
  | cons hd t ih =>
    obtain ⟨a, b⟩ := hd
    by_cases h : a = k
    · simp [dictInsert, h, alookup]
    · simp [dictInsert, h, alookup, ih]

theorem alookup_dictInsert_ne (k k' : α) (v : β) (l : List (α × β)) (h : k' ≠ k) :
    alookup k (dictInsert k' v l) = alookup k l := by
  induction l with
  | nil => simp [dictInsert, alookup, h]
  | cons hd t ih =>
    obtain ⟨a, b⟩ := hd
    by_cases ha : a = k'
    · subst ha
      simp [dictInsert, alookup, h, ih]
    · simp [dictInsert, ha, alookup, ih]

theorem alookup_isSome_dictInsert (k k' : α) (v : β) (l : List (α × β))
    (h : (alookup k l).isSome) : (alookup k (dictInsert k' v l)).isSome := by
  by_cases hk : k' = k
  · subst hk; simp
  · rwa [alookup_dictInsert_ne _ _ _ _ hk]

theorem apop_eq_some_of_alookup (k : α) (l : List (α × β)) (v : β)
    (h : alookup k l = some v) : ∃ l', apop k l = some (v, l') ∧
      ∀ k', k' ≠ k → alookup k' l' = alookup k' l := by
  induction l with
  | nil => simp [alookup] at h
  | cons hd t ih =>
    obtain ⟨a, b⟩ := hd
    by_cases ha : a = k
    · subst ha
      simp [alookup] at h
      subst h
      exact ⟨t, by simp [apop], fun k' hk' => by simp [alookup, hk'.symm]⟩
    · simp [alookup, ha] at h
      obtain ⟨l', hl', hpres⟩ := ih h
      refine ⟨(a, b) :: l', by simp [apop, ha, hl'], fun k' hk' => ?_⟩
      by_cases hak' : a = k'
      · simp [alookup, hak']
      · simp [alookup, hak', hpres k' hk']

theorem alookup_of_apop (k : α) (l : List (α × β)) (v : β) (l' : List (α × β))
    (h : apop k l = some (v, l')) : alookup k l = some v := by
  induction l generalizing l' with
  | nil => simp [apop] at h
  | cons hd t ih =>
    obtain ⟨a, b⟩ := hd
    by_cases ha : a = k
    · subst ha
      simp [apop] at h
      simp [alookup, h.1]
    · simp [apop, ha] at h
      obtain ⟨w, t', hpop, hv, _⟩ := h
      subst hv
      simpa [alookup, ha] using ih t' hpop

theorem alookup_eraseKey_ne (k k' : α) (l : List (α × β)) (h : k' ≠ k) :
    alookup k' (eraseKey k l) = alookup k' l := by
  unfold eraseKey
  cases hpop : apop k l with
  | none => rfl
  | some p =>
    obtain ⟨v, l'⟩ := p
    have hl : alookup k l = some v := alookup_of_apop k l v l' hpop
    obtain ⟨l'', hl'', hpres⟩ := apop_eq_some_of_alookup k l v hl
    rw [hpop] at hl''
    cases hl''
    exact hpres k' h

end AssocLemmas

theorem writeAt_length (vs : List ℚ) (buf : Buf) (ind : Nat) :
    (writeAt buf ind vs).length = buf.length := by
  induction vs generalizing buf ind with
  | nil => rfl
  | cons v vs ih => simp [writeAt, ih]

theorem alookup_dictInsert {α β : Type _} [DecidableEq α] (k k' : α) (v : β)
    (l : List (α × β)) :
    alookup k (dictInsert k' v l) = if k' = k then some v else alookup k l := by
  by_cases h : k' = k
  · subst h; simp
  · simp [h, alookup_dictInsert_ne _ _ _ _ h]

theorem alookup_map_const {α β : Type _} [DecidableEq α] (c : β) (f : α)
    (fl : List α) (h : f ∈ fl) :
    alookup f (fl.map (fun x => (x, c))) = some c := by
  induction fl with
  | nil => simp at h
  | cons hd t ih =>
    rcases List.mem_cons.mp h with h | h
    · subst h; simp [alookup]
    · by_cases hhd : hd = f
      · subst hhd; simp [alookup]
      · simp [alookup, hhd, ih h]

/-! ## Claim C8: non-fluid field types are rejected up front -/

/-- Claim C8: If any requested field key lies outside the `"boxlib"` fluid
namespace, `_read_fluid_selection` fails immediately with the
unsupported-field-type error (`raise NotImplementedError`): no output mapping
is produced, and no file is consulted (the result is independent of the file
system). -/
theorem c8_unsupported_field_type (fs fs' : FS) (idx : DsIndex) (chunks : List Chunk)
    (sel : Selector) (fields : List FieldKey) (size : Nat)
    (h : ∃ fk ∈ fields, fk.1 ≠ "boxlib") :
    read_fluid_selection fs idx chunks sel fields size = .error .notImplementedError ∧
      read_fluid_selection fs idx chunks sel fields size =
        read_fluid_selection fs' idx chunks sel fields size := by
  have hc : fields.any (fun fk => fk.1 ≠ "boxlib") = true := by
    rw [List.any_eq_true]
    obtain ⟨fk, hfk, hne⟩ := h
    exact ⟨fk, hfk, decide_eq_true hne⟩
  constructor
  · unfold read_fluid_selection
    rw [if_pos hc]
  · unfold read_fluid_selection
    rw [if_pos hc, if_pos hc]

/-- Witness for C8 at a concrete input: one particle-namespace field key. -/
theorem c8_witness :
    read_fluid_selection (fun _ => []) ⟨[("boxlib", "density")], 8⟩ []
        ⟨"RegionSelector", fun _ => 0, fun _ _ => [], fun _ _ _ _ => none⟩
        [("io", "particle_mass")] 0 = .error .notImplementedError :=
  (c8_unsupported_field_type (fun _ => []) (fun _ => [])
    ⟨[("boxlib", "density")], 8⟩ []
    ⟨"RegionSelector", fun _ => 0, fun _ _ => [], fun _ _ _ _ => none⟩
    [("io", "particle_mass")] 0
    ⟨("io", "particle_mass"), by simp, by decide⟩).1

/-! ## Claim C5: a grid with a null file path crashes the fluid read -/

/-- Claim C5, failing input: A chunk containing a grid whose `filename` is
`None`: `_read_chunk_data` skips the grid, so `data` has no entry for its id,
and `_read_fluid_selection` then raises `KeyError` at `data[g.id]` instead of
skipping the grid and completing normally. -/
theorem c5_null_filename_keyerror :
    read_fluid_selection (fun _ => []) ⟨[("boxlib", "density")], 8⟩
        [⟨[⟨7, none, 0, (1, 1, 1), 0, 0⟩]⟩]
        ⟨"RegionSelector", fun _ => 0, fun _ _ => [], fun _ _ _ _ => none⟩
        [("boxlib", "density")] 0 = .error .keyError := rfl

/-! ## Claim C10: the Orion general path ignores the selector -/

/-- Claim C10: On the Orion general (non-`GridSelector`) path the result is
independent of the selector: the per-grid `_read_particles(grid, fname)`
takes no selector at all, so any two non-`GridSelector` selectors yield
identical results on the same chunks, fields and reader state. -/
theorem c10_selector_independence (ctx : OrionCtx) (chunks : List OChunk)
    (s1 s2 : Selector) (fields : List FieldKey) (st : OrionState)
    (h1 : s1.className ≠ "GridSelector") (h2 : s2.className ≠ "GridSelector") :
    orion_read_particle_selection ctx chunks s1 fields st =
      orion_read_particle_selection ctx chunks s2 fields st := by
  unfold orion_read_particle_selection
  rw [if_neg h1, if_neg h2]

/-- Witness for C10: two different concrete non-grid selectors. -/
theorem c10_witness :
    orion_read_particle_selection ⟨"o", true, fun _ => [], fun _ _ => 0, fun _ => 0⟩
        [⟨[⟨1, [0]⟩]⟩] ⟨"SphereSelector", fun _ => 0, fun _ _ => [], fun _ _ _ _ => none⟩
        [("io", "particle_mass")] ⟨none, none, 0⟩ =
      orion_read_particle_selection ⟨"o", true, fun _ => [], fun _ _ => 0, fun _ => 0⟩
        [⟨[⟨1, [0]⟩]⟩] ⟨"RegionSelector", fun _ => 0, fun _ _ => [], fun _ _ _ _ => none⟩
        [("io", "particle_mass")] ⟨none, none, 0⟩ :=
  c10_selector_independence _ _ _ _ _ _ (by decide) (by decide)

/-! ## Claim C9: the Orion `GridSelector` fast path and its precondition -/

/-- Claim C9: With a `GridSelector`, `IOHandlerOrion._read_particle_selection`
raises a fatal error (a `RuntimeError` from the explicit check, or an
`IndexError` from `chunks[0]` on an empty chunk list) whenever the supplied
chunks are not exactly one chunk containing exactly one grid; when the
precondition holds, the fast path runs on the single grid and the general
chunk iteration is skipped. -/
theorem c9_gridselector_precondition (ctx : OrionCtx) (chunks : List OChunk)
    (sel : Selector) (fields : List FieldKey) (st : OrionState)
    (hsel : sel.className = "GridSelector") :
    (¬(∃ c0 g, chunks = [c0] ∧ c0.objs = [g]) →
        (orion_read_particle_selection ctx chunks sel fields st).1 = .error .runtimeError ∨
        (orion_read_particle_selection ctx chunks sel fields st).1 = .error .indexError) ∧
      (∀ c0 g, chunks = [c0] → c0.objs = [g] →
        orion_read_particle_selection ctx chunks sel fields st =
          (.ok (opselFast ctx g fields [] st).1, (opselFast ctx g fields [] st).2)) := by
  constructor
  · intro hpre
    unfold orion_read_particle_selection
    rw [if_pos hsel]
    cases chunks with
    | nil => right; rfl
    | cons c0 cs =>
      dsimp only
      by_cases hcond : (c0 :: cs).length = c0.objs.length ∧ c0.objs.length = 1
      · exfalso
        apply hpre
        obtain ⟨h1, h2⟩ := hcond
        have hl : cs.length + 1 = 1 := by simpa using h1.trans h2
        have hcs : cs = [] := List.length_eq_zero.mp (by omega)
        match hobjs : c0.objs, h2 with
        | [g], _ => exact ⟨c0, g, by rw [hcs], hobjs⟩
      · rw [if_neg hcond]
        left; rfl
  · intro c0 g hch hobjs
    subst hch
    unfold orion_read_particle_selection
    rw [if_pos hsel]
    simp [hobjs]

/-- Witness for C9: two chunks under a `GridSelector` is a fatal error. -/
theorem c9_witness :
    (orion_read_particle_selection ⟨"o", true, fun _ => [], fun _ _ => 0, fun _ => 0⟩
        [⟨[⟨1, [0]⟩]⟩, ⟨[⟨2, [1]⟩]⟩]
        ⟨"GridSelector", fun _ => 0, fun _ _ => [], fun _ _ _ _ => none⟩
        [("io", "particle_mass")] ⟨none, none, 0⟩).1 = .error .runtimeError ∨
      (orion_read_particle_selection ⟨"o", true, fun _ => [], fun _ _ => 0, fun _ => 0⟩
        [⟨[⟨1, [0]⟩]⟩, ⟨[⟨2, [1]⟩]⟩]
        ⟨"GridSelector", fun _ => 0, fun _ _ => [], fun _ _ _ _ => none⟩
        [("io", "particle_mass")] ⟨none, none, 0⟩).1 = .error .indexError :=
  (c9_gridselector_precondition _ _ _ _ _ rfl).1 (by
    rintro ⟨c0, g, hch, -⟩
    have := congrArg List.length hch
    simp at this)

/-! ## Claim C7: the Orion text reader re-reads the file on later calls -/

/-- Claim C7, failing input: On a fresh Orion reader, the first
`_read_particles` call performs two file reads (one `readlines` plus one
`parse_orion_sinks` triggered by the `particle_field_index` property inside
`read`), and a second call for a different field performs a further read
(reads go from 2 to 3): the `particle_field_index` property recomputes
`parse_orion_sinks` on every access instead of consulting its stored
`_particle_field_index` attribute, so the file is *not* read at most once
per reader instance. -/
theorem c7_field_index_rereads_file :
    ((orion_read_particles ⟨"o", true, fun _ => ["1 2"], fun _ _ => 0, fun _ => 0⟩
        ⟨1, [0]⟩ "f1" ⟨none, none, 0⟩).2).reads = 2 ∧
      ((orion_read_particles ⟨"o", true, fun _ => ["1 2"], fun _ _ => 0, fun _ => 0⟩
        ⟨1, [0]⟩ "f2"
        ((orion_read_particles ⟨"o", true, fun _ => ["1 2"], fun _ _ => 0, fun _ => 0⟩
          ⟨1, [0]⟩ "f1" ⟨none, none, 0⟩).2)).2).reads = 3 :=
  ⟨rfl, rfl⟩

/-! ## Claim C4: the synthesized z coordinate in 2-d datasets -/

/-- Claim C4: In a two-dimensional dataset the z coordinates that
`_read_particles` passes to the point-selection predicate are the constant
list `0.5 * (grid.LeftEdge[2] + grid.RightEdge[2])`, one entry per particle
(`posZ` is the z block both decode branches duplicate): two selectors whose
`select_points` agree on constant-midpoint z lists are indistinguishable to
`_read_particles`, and `posZ` literally is that constant list. -/
theorem c4_z_midpoint_2d (ctx : PCtx) (g : Grid) (s1 s2 : Selector) (ft name : String)
    (hdim : ctx.dimensionality = 2)
    (hagree : ∀ x y (n : Nat),
      s1.pointMask x y (List.replicate n ((g.leftEdgeZ + g.rightEdgeZ) / 2)) 0 =
        s2.pointMask x y (List.replicate n ((g.leftEdgeZ + g.rightEdgeZ) / 2)) 0) :
    (∀ rdata num_real, posZ ctx.dimensionality g rdata num_real =
        List.replicate (strideSlice rdata 1 num_real).length
          ((g.leftEdgeZ + g.rightEdgeZ) / 2)) ∧
      read_particles ctx g s1 ft name = read_particles ctx g s2 ft name := by
  have hz : ∀ rdata num_real, posZ ctx.dimensionality g rdata num_real =
      List.replicate (strideSlice rdata 1 num_real).length
        ((g.leftEdgeZ + g.rightEdgeZ) / 2) := by
    intro rdata num_real
    rw [hdim]
    unfold posZ
    rw [if_pos rfl, List.map_const']
    congr 1
    ring
  refine ⟨hz, ?_⟩
  simp only [read_particles, hz]
  by_cases h0 : (ctx.pdata g.id ft).numberOfParticles = 0
  · simp only [if_pos h0]
  · simp only [if_neg h0]
    by_cases hint : name ∈ (ctx.particle_headers ft).known_int_fields.map (·.2)
    · simp only [if_pos hint]
      rw [hagree]
    · simp only [if_neg hint]
      by_cases hreal : name ∈ (ctx.particle_headers ft).known_real_fields.map (·.2)
      · simp only [if_pos hreal]
        rw [hagree]
      · simp only [if_neg hreal]

/-- Witness for C4 on a concrete 2-d dataset with two distinct selectors
whose point masks coincide. -/
theorem c4_witness :
    (∀ rdata num_real,
      posZ (PCtx.dimensionality ⟨fun _ => none, fun _ => ⟨[], [(0, "x"), (1, "y")], 0, 2⟩, 2,
          fun _ _ => ⟨1, "pf", 0⟩, fun _ _ => ⟨[], [3, 4]⟩⟩)
        ⟨5, some "gf", 0, (2, 2, 1), 10, 12⟩ rdata num_real =
        List.replicate (strideSlice rdata 1 num_real).length ((10 + 12) / 2 : ℚ)) ∧
      read_particles ⟨fun _ => none, fun _ => ⟨[], [(0, "x"), (1, "y")], 0, 2⟩, 2,
          fun _ _ => ⟨1, "pf", 0⟩, fun _ _ => ⟨[], [3, 4]⟩⟩
        ⟨5, some "gf", 0, (2, 2, 1), 10, 12⟩
        ⟨"SphereSelector", fun _ => 0, fun _ _ => [], fun x _ _ _ => some (x.map (fun _ => true))⟩
        "io" "y" =
      read_particles ⟨fun _ => none, fun _ => ⟨[], [(0, "x"), (1, "y")], 0, 2⟩, 2,
          fun _ _ => ⟨1, "pf", 0⟩, fun _ _ => ⟨[], [3, 4]⟩⟩
        ⟨5, some "gf", 0, (2, 2, 1), 10, 12⟩
        ⟨"RegionSelector", fun _ => 1, fun _ _ => [], fun x _ _ _ => some (x.map (fun _ => true))⟩
        "io" "y" :=
  c4_z_midpoint_2d
    ⟨fun _ => none, fun _ => ⟨[], [(0, "x"), (1, "y")], 0, 2⟩, 2,
      fun _ _ => ⟨1, "pf", 0⟩, fun _ _ => ⟨[], [3, 4]⟩⟩
    ⟨5, some "gf", 0, (2, 2, 1), 10, 12⟩
    ⟨"SphereSelector", fun _ => 0, fun _ _ => [], fun x _ _ _ => some (x.map (fun _ => true))⟩
    ⟨"RegionSelector", fun _ => 1, fun _ _ => [], fun x _ _ _ => some (x.map (fun _ => true))⟩
    "io" "y" rfl (fun _ _ _ => rfl)

/-! ## Claim C6: an unknown particle field name is returned as `None` -/

/-- Claim C6, counterexample: With one particle and a field name in neither
header table, `_read_particles` does not fail with a lookup error: both
membership tests are false, control falls off the end of the function, and
Python silently returns `None` — a non-array value. -/
theorem c6_counterexample :
    read_particles
        ⟨fun _ => none, fun _ => ⟨[(0, "particle_id")], [(0, "x"), (1, "y"), (2, "z")], 1, 3⟩,
          3, fun _ _ => ⟨1, "pf", 0⟩, fun _ _ => ⟨[0], [1, 2, 3]⟩⟩
        ⟨4, some "gf", 0, (1, 1, 1), 0, 1⟩
        ⟨"RegionSelector", fun _ => 0, fun _ _ => [], fun x _ _ _ => some (x.map (fun _ => true))⟩
        "io" "bogus_field" = .pyNone := rfl

/-- Claim C6, amended: For a positive particle count and a field name that
appears in neither the header's integer-field names nor its real-field
names, `_read_particles` silently returns Python `None` (a non-array value);
no lookup error is raised. -/
theorem c6_unknown_field_returns_none (ctx : PCtx) (g : Grid) (sel : Selector)
    (ft name : String)
    (h0 : (ctx.pdata g.id ft).numberOfParticles ≠ 0)
    (hint : name ∉ (ctx.particle_headers ft).known_int_fields.map (·.2))
    (hreal : name ∉ (ctx.particle_headers ft).known_real_fields.map (·.2)) :
    read_particles ctx g sel ft name = .pyNone := by
  simp only [read_particles, if_neg h0, if_neg hint, if_neg hreal]

/-- Witness for the amended C6 at a concrete input. -/
theorem c6_witness :
    read_particles
        ⟨fun _ => none, fun _ => ⟨[(0, "particle_id")], [(0, "x"), (1, "y"), (2, "z")], 1, 3⟩,
          3, fun _ _ => ⟨2, "pf", 64⟩, fun _ _ => ⟨[0, 1], [1, 2, 3, 4, 5, 6]⟩⟩
        ⟨9, some "gf", 0, (1, 1, 1), 0, 1⟩
        ⟨"SphereSelector", fun _ => 0, fun _ _ => [], fun x _ _ _ => some (x.map (fun _ => true))⟩
        "io" "particle_charge" = .pyNone :=
  c6_unknown_field_returns_none
    ⟨fun _ => none, fun _ => ⟨[(0, "particle_id")], [(0, "x"), (1, "y"), (2, "z")], 1, 3⟩,
      3, fun _ _ => ⟨2, "pf", 64⟩, fun _ _ => ⟨[0, 1], [1, 2, 3, 4, 5, 6]⟩⟩
    ⟨9, some "gf", 0, (1, 1, 1), 0, 1⟩
    ⟨"SphereSelector", fun _ => 0, fun _ _ => [], fun x _ _ _ => some (x.map (fun _ => true))⟩
    "io" "particle_charge" (by decide) (by decide) (by decide)

/-! ## Claim C2: the local-offset skip arithmetic of `_read_chunk_data` -/

/-- Claim C2: Concrete scenario: a (4,4,4) grid (64 cells) in a file holding
the fields `density` then `temperature`, requesting only `temperature`.
Walking the field-order table, the density entry accumulates exactly
`64 * item_width` bytes of skip (and reads nothing); the temperature entry
seeks forward by that skip (relative to the cursor) and reads exactly the
next `64 * item_width` bytes — the cursor ends at `128 * item_width` — and
the 64 values read are the stored temperature values.  In general
`fieldStep` adds `count * item_width` to the running local offset for an
unrequested field-order entry, and a requested entry seeks by the running
offset, advances the cursor by exactly `count * item_width` more bytes, and
resets the local offset to zero. -/
theorem c2_local_offset_walk (bpr : Nat) (hbpr : 0 < bpr) (dvals tvals : List ℚ)
    (hd : dvals.length = 64) (ht : tvals.length = 64) (g : Grid)
    (hdims : g.dims = (4, 4, 4)) (hoff : g.offset = 0) :
    (readGridBlock (dvals ++ tvals) bpr
        [("boxlib", "density"), ("boxlib", "temperature")] [("boxlib", "temperature")] g 0
      = { out := [(("boxlib", "temperature"), tvals)],
          cursor := ((128 * bpr : Nat) : Int), localOffset := 0 }) ∧
      (fieldStep (dvals ++ tvals) bpr g.cellCount [("boxlib", "temperature")]
          { out := [], cursor := 0, localOffset := 0 } ("boxlib", "density")
        = { out := [], cursor := 0, localOffset := ((64 * bpr : Nat) : Int) }) ∧
      (∀ content count fields (st : GState) f, f ∉ fields →
        fieldStep content bpr count fields st f
          = { st with localOffset := st.localOffset + ((count * bpr : Nat) : Int) }) ∧
      (∀ content count fields (st : GState) f, f ∈ fields →
        (fieldStep content bpr count fields st f).localOffset = 0 ∧
          (fieldStep content bpr count fields st f).cursor
            = st.cursor + st.localOffset + ((count * bpr : Nat) : Int)) := by
  have hcell : g.cellCount = 64 := by simp [Grid.cellCount, hdims]
  have hread : readItems (dvals ++ tvals) ((64 * bpr : Nat) : Int) bpr 64 = tvals := by
    have h1 : (dvals ++ tvals).drop 64 = tvals := by rw [← hd, List.drop_left]
    have h2 : tvals.take 64 = tvals := by rw [← ht, List.take_length]
    unfold readItems
    rw [← Int.ofNat_ediv, Nat.mul_div_cancel _ hbpr, Int.toNat_ofNat, h1, h2]
  have hden : fieldStep (dvals ++ tvals) bpr 64 [("boxlib", "temperature")]
      { out := [], cursor := 0, localOffset := 0 } ("boxlib", "density")
        = { out := [], cursor := 0, localOffset := ((64 * bpr : Nat) : Int) } := by
    unfold fieldStep
    rw [if_neg (by decide)]
    simp
  have htem : fieldStep (dvals ++ tvals) bpr 64 [("boxlib", "temperature")]
      { out := [], cursor := 0, localOffset := ((64 * bpr : Nat) : Int) }
        ("boxlib", "temperature")
        = { out := [(("boxlib", "temperature"), tvals)],
            cursor := ((128 * bpr : Nat) : Int), localOffset := 0 } := by
    unfold fieldStep
    rw [if_pos (by decide)]
    simp only [zero_add]
    rw [hread]
    have hcur : ((64 * bpr : Nat) : Int) + ((64 * bpr : Nat) : Int)
        = ((128 * bpr : Nat) : Int) := by push_cast; ring
    rw [hcur]
    rfl
  refine ⟨?_, ?_, ?_, ?_⟩
  · unfold readGridBlock
    rw [hoff, hcell]
    simp only [List.foldl]
    rw [show ((0 : Nat) : Int) - 0 = 0 by simp, hden, htem]
  · rw [hcell]
    exact hden
  · intro content count fields st f hf
    unfold fieldStep
    rw [if_neg hf]
  · intro content count fields st f hf
    unfold fieldStep
    rw [if_pos hf]
    exact ⟨rfl, rfl⟩

/-- Witness for C2: eight-byte items, density all ones, temperature all twos. -/
theorem c2_witness :
    readGridBlock (List.replicate 64 (1 : ℚ) ++ List.replicate 64 (2 : ℚ)) 8
        [("boxlib", "density"), ("boxlib", "temperature")] [("boxlib", "temperature")]
        ⟨3, some "level_0/Cell_D_0000", 0, (4, 4, 4), 0, 1⟩ 0
      = { out := [(("boxlib", "temperature"), List.replicate 64 (2 : ℚ))],
          cursor := ((128 * 8 : Nat) : Int), localOffset := 0 } :=
  (c2_local_offset_walk 8 (by decide) (List.replicate 64 (1 : ℚ))
    (List.replicate 64 (2 : ℚ)) (by simp) (by simp)
    ⟨3, some "level_0/Cell_D_0000", 0, (4, 4, 4), 0, 1⟩ rfl rfl).1

/-! ## Claim C3: the union resolver prepends, reversing visitation order -/

section C3Lemmas

variable (ctx : PCtx) (sel : Selector) (ft fn : String) (d : Grid → String → List ℚ)

theorem pselSubtypes_spec (g : Grid) :
    ∀ (ss : List String) (acc : List ℚ),
      (∀ s ∈ ss, read_particles ctx g sel s fn = .arr (d g s)) →
      pselSubtypes ctx sel g ft fn ss [((ft, fn), acc)] =
        .ok [((ft, fn), ((ss.map (d g)).reverse).flatten ++ acc)]
  | [], acc, _ => by simp [pselSubtypes]
  | s :: ss, acc, h => by
    have hs : read_particles ctx g sel s fn = .arr (d g s) := h s (by simp)
    have hrest : ∀ s' ∈ ss, read_particles ctx g sel s' fn = .arr (d g s') :=
      fun s' hs' => h s' (by simp [hs'])
    have hpre : prependResult (read_particles ctx g sel s fn) ft fn [((ft, fn), acc)]
        = .ok [((ft, fn), d g s ++ acc)] := by
      rw [hs]
      simp [prependResult, alookup, dictInsert]
    unfold pselSubtypes
    rw [hpre]
    dsimp only
    rw [pselSubtypes_spec g ss (d g s ++ acc) hrest]
    simp [List.flatten_append, List.append_assoc]

theorem pselFields_single (g : Grid) (ss : List String) (acc : List ℚ)
    (hu : ctx.unions ft = some ss)
    (h : ∀ s ∈ ss, read_particles ctx g sel s fn = .arr (d g s)) :
    pselFields ctx sel g [(ft, fn)] [((ft, fn), acc)] =
      .ok [((ft, fn), ((ss.map (d g)).reverse).flatten ++ acc)] := by
  unfold pselFields
  rw [hu]
  dsimp only
  rw [pselSubtypes_spec ctx sel ft fn d g ss acc h]
  dsimp only
  simp [pselFields]

theorem pselGrids_spec (ss : List String) (hu : ctx.unions ft = some ss) :
    ∀ (gs : List Grid) (acc : List ℚ),
      (∀ g ∈ gs, ∀ s ∈ ss, read_particles ctx g sel s fn = .arr (d g s)) →
      pselGrids ctx sel [(ft, fn)] gs [((ft, fn), acc)] =
        .ok [((ft, fn), ((gs.flatMap (fun g => ss.map (d g))).reverse).flatten ++ acc)]
  | [], acc, _ => by simp [pselGrids]
  | g :: gs, acc, h => by
    have hg : ∀ s ∈ ss, read_particles ctx g sel s fn = .arr (d g s) :=
      fun s hs => h g (by simp) s hs
    have hrest : ∀ g' ∈ gs, ∀ s ∈ ss, read_particles ctx g' sel s fn = .arr (d g' s) :=
      fun g' hg' s hs => h g' (by simp [hg']) s hs
    unfold pselGrids
    rw [pselFields_single ctx sel ft fn d g ss acc hu hg]
    dsimp only
    rw [pselGrids_spec ss hu gs (((ss.map (d g)).reverse).flatten ++ acc) hrest]
    simp [List.flatten_append, List.append_assoc]

theorem pselChunks_spec (ss : List String) (hu : ctx.unions ft = some ss) :
    ∀ (cs : List Chunk) (acc : List ℚ),
      (∀ g ∈ cs.flatMap (fun c => c.objs), ∀ s ∈ ss,
        read_particles ctx g sel s fn = .arr (d g s)) →
      pselChunks ctx sel [(ft, fn)] cs [((ft, fn), acc)] =
        .ok [((ft, fn),
          (((cs.flatMap (fun c => c.objs)).flatMap (fun g => ss.map (d g))).reverse).flatten
            ++ acc)]
  | [], acc, _ => by simp [pselChunks]
  | c :: cs, acc, h => by
    have hc : ∀ g ∈ c.objs, ∀ s ∈ ss, read_particles ctx g sel s fn = .arr (d g s) :=
      fun g hg s hs => h g (by simp [hg]) s hs
    have hrest : ∀ g ∈ cs.flatMap (fun c => c.objs), ∀ s ∈ ss,
        read_particles ctx g sel s fn = .arr (d g s) :=
      fun g hg s hs => h g (by simp at hg ⊢; exact Or.inr hg) s hs
    unfold pselChunks
    rw [pselGrids_spec ctx sel ft fn d ss hu c.objs acc hc]
    dsimp only
    rw [pselChunks_spec ss hu cs
      (((c.objs.flatMap (fun g => ss.map (d g))).reverse).flatten ++ acc) hrest]
    simp [List.flatten_append, List.append_assoc]

end C3Lemmas

/-- Claim C3: For a union particle type (`unions ft = some ss`), the resolver
prepends each newly produced per-grid, per-subtype array to the accumulator
(`np.concatenate((data, rv[ftype, fname]))`), so the final result is the
concatenation of the per-(grid, subtype) arrays in *reverse* visitation
order; within one grid the subtypes are visited in the union's declared
order `ss`.  In particular, G1 visited before G2 yielding `[1]` and `[2]`
produces `[2, 1]`. -/
theorem c3_union_prepend_order (ctx : PCtx) (chunks : List Chunk) (sel : Selector)
    (ft fn : String) (ss : List String) (d : Grid → String → List ℚ)
    (hu : ctx.unions ft = some ss)
    (hd : ∀ g ∈ chunks.flatMap (fun c => c.objs), ∀ s ∈ ss,
      read_particles ctx g sel s fn = .arr (d g s)) :
    read_particle_selection ctx chunks sel [(ft, fn)] =
      .ok [((ft, fn),
        (((chunks.flatMap (fun c => c.objs)).flatMap (fun g => ss.map (d g))).reverse).flatten)] := by
  unfold read_particle_selection
  have hinit : ([((ft, fn) : FieldKey)].map (fun f => (f, ([] : List ℚ))))
      = [((ft, fn), ([] : List ℚ))] := rfl
  rw [hinit, pselChunks_spec ctx sel ft fn d ss hu chunks [] hd]
  simp

/-- Witness for C3: the claim's concrete scenario — grids G1 then G2 in one
chunk yielding `[1]` and `[2]` for subtype `"io"` of union `"star"` produce
`[2, 1]`, not `[1, 2]`. -/
theorem c3_witness :
    read_particle_selection
        ⟨fun t => if t = "star" then some ["io"] else none,
          fun _ => ⟨[], [(0, "x"), (1, "y"), (2, "z"), (3, "particle_mass")], 0, 4⟩,
          3,
          fun gid _ => ⟨1, if gid = 1 then "pf1" else "pf2", 0⟩,
          fun fnm _ => if fnm = "pf1" then ⟨[], [0, 0, 0, 1]⟩ else ⟨[], [0, 0, 0, 2]⟩⟩
        [⟨[⟨1, some "gf1", 0, (1, 1, 1), 0, 1⟩, ⟨2, some "gf2", 0, (1, 1, 1), 0, 1⟩]⟩]
        ⟨"SphereSelector", fun _ => 0, fun _ _ => [],
          fun x _ _ _ => some (x.map (fun _ => true))⟩
        [("star", "particle_mass")] =
      .ok [(("star", "particle_mass"), [2, 1])] := by
  rw [c3_union_prepend_order
    ⟨fun t => if t = "star" then some ["io"] else none,
      fun _ => ⟨[], [(0, "x"), (1, "y"), (2, "z"), (3, "particle_mass")], 0, 4⟩,
      3,
      fun gid _ => ⟨1, if gid = 1 then "pf1" else "pf2", 0⟩,
      fun fnm _ => if fnm = "pf1" then ⟨[], [0, 0, 0, 1]⟩ else ⟨[], [0, 0, 0, 2]⟩⟩
    [⟨[⟨1, some "gf1", 0, (1, 1, 1), 0, 1⟩, ⟨2, some "gf2", 0, (1, 1, 1), 0, 1⟩]⟩]
    ⟨"SphereSelector", fun _ => 0, fun _ _ => [],
      fun x _ _ _ => some (x.map (fun _ => true))⟩
    "star" "particle_mass" ["io"]
    (fun g _ => if g.id = 1 then [1] else [2])
    rfl (by decide)]
  rfl

/-! ## Claim C1: helper lemmas about `_read_chunk_data`'s output -/

section C1Assoc

variable {α : Type _} {β : Type _} [DecidableEq α]

theorem alookup_mem (k : α) (v : β) : ∀ l : List (α × β), alookup k l = some v → (k, v) ∈ l
  | [], h => by simp [alookup] at h
  | (a, b) :: t, h => by
    by_cases ha : a = k
    · subst ha
      simp [alookup] at h
      simp [h]
    · simp [alookup, ha] at h
      simp [alookup_mem k v t h]

theorem mem_dictInsert (k : α) (v : β) (p : α × β) :
    ∀ l : List (α × β), p ∈ dictInsert k v l → p = (k, v) ∨ p ∈ l
  | [], h => by simpa [dictInsert] using h
  | (a, b) :: t, h => by
    by_cases ha : a = k
    · subst ha
      simp [dictInsert] at h
      rcases h with h | h
      · exact Or.inl h
      · exact Or.inr (by simp [h])
    · simp [dictInsert, ha] at h
      rcases h with h | h
      · exact Or.inr (by simp [h])
      · rcases mem_dictInsert k v p t h with h' | h'
        · exact Or.inl h'
        · exact Or.inr (by simp [h'])

theorem mem_of_apop (k : α) (v : β) (p : α × β) :
    ∀ (l l' : List (α × β)), apop k l = some (v, l') → p ∈ l' → p ∈ l
  | [], l', h, _ => by simp [apop] at h
  | (a, b) :: t, l', h, hp => by
    by_cases ha : a = k
    · subst ha
      simp [apop] at h
      rw [← h.2] at hp
      simp [hp]
    · simp [apop, ha] at h
      obtain ⟨w, t', hpop', hw, hl'⟩ := h
      rw [← hl'] at hp
      rcases List.mem_cons.mp hp with h' | h'
      · simp [h']
      · exact List.mem_cons_of_mem _ (mem_of_apop k v p t t' (by rw [hpop', hw]) h')

theorem mem_eraseKey (k : α) (p : α × β) (l : List (α × β))
    (h : p ∈ eraseKey k l) : p ∈ l := by
  unfold eraseKey at h
  cases hpop : apop k l with
  | none => rw [hpop] at h; exact h
  | some q =>
    rw [hpop] at h
    exact mem_of_apop k q.1 p l q.2 (by rw [hpop]) h

end C1Assoc

theorem fieldStep_out_preserves (content : List ℚ) (bpr count : Nat)
    (fields : List FieldKey) (st : GState) (f0 f : FieldKey)
    (h : (alookup f st.out).isSome) :
    (alookup f (fieldStep content bpr count fields st f0).out).isSome := by
  unfold fieldStep
  by_cases hf0 : f0 ∈ fields
  · rw [if_pos hf0]
    exact alookup_isSome_dictInsert _ _ _ _ h
  · rw [if_neg hf0]
    exact h

theorem fieldWalk_presence (content : List ℚ) (bpr count : Nat) (fields : List FieldKey) :
    ∀ (fo : List FieldKey) (st : GState) (f : FieldKey),
      ((f ∈ fo ∧ f ∈ fields) ∨ (alookup f st.out).isSome) →
      (alookup f (fo.foldl (fieldStep content bpr count fields) st).out).isSome
  | [], st, f, h => by
    rcases h with ⟨h1, _⟩ | h2
    · simp at h1
    · simpa using h2
  | f0 :: fo, st, f, h => by
    simp only [List.foldl]
    apply fieldWalk_presence content bpr count fields fo
    rcases h with ⟨h1, h2⟩ | h2
    · rcases List.mem_cons.mp h1 with rfl | h1'
      · right
        unfold fieldStep
        rw [if_pos h2]
        simp [alookup_dictInsert_self]
      · exact Or.inl ⟨h1', h2⟩
    · exact Or.inr (fieldStep_out_preserves content bpr count fields st f0 f h2)

theorem readGridBlock_complete (content : List ℚ) (bpr : Nat)
    (fieldOrder fields : List FieldKey) (g : Grid) (cursor : Int) (f : FieldKey)
    (hfo : f ∈ fieldOrder) (hff : f ∈ fields) :
    (alookup f (readGridBlock content bpr fieldOrder fields g cursor).out).isSome := by
  unfold readGridBlock
  exact fieldWalk_presence content bpr g.cellCount fields fieldOrder _ f (Or.inl ⟨hfo, hff⟩)

theorem readFileGrids_good (content : List ℚ) (bpr : Nat)
    (fieldOrder fields : List FieldKey) (hsub : ∀ f ∈ fields, f ∈ fieldOrder) :
    ∀ (gs : List Grid) (data : List (Nat × List (FieldKey × List ℚ))) (cursor : Int),
      GoodData fields data →
      GoodData fields (readFileGrids content bpr fieldOrder fields gs data cursor).1
  | [], _, _, h => h
  | g :: gs, data, cursor, h => by
    unfold readFileGrids
    apply readFileGrids_good content bpr fieldOrder fields hsub gs _ _ ?_
    intro p hp f hf
    rcases mem_dictInsert _ _ _ _ hp with hp' | hp'
    · subst hp'
      exact readGridBlock_complete content bpr fieldOrder fields g cursor f (hsub f hf) hf
    · exact h p hp' f hf

theorem readFileGrids_presence (content : List ℚ) (bpr : Nat)
    (fieldOrder fields : List FieldKey) :
    ∀ (gs : List Grid) (data : List (Nat × List (FieldKey × List ℚ))) (cursor : Int)
      (k : Nat),
      ((∃ g ∈ gs, g.id = k) ∨ (alookup k data).isSome) →
      (alookup k (readFileGrids content bpr fieldOrder fields gs data cursor).1).isSome
  | [], data, cursor, k, h => by
    rcases h with ⟨g, hg, _⟩ | h
    · simp at hg
    · exact h
  | g :: gs, data, cursor, k, h => by
    unfold readFileGrids
    apply readFileGrids_presence content bpr fieldOrder fields gs
    rcases h with ⟨g', hg', hid⟩ | h
    · rcases List.mem_cons.mp hg' with rfl | hmem
      · right
        subst hid
        simp [alookup_dictInsert_self]
      · exact Or.inl ⟨g', hmem, hid⟩
    · exact Or.inr (alookup_isSome_dictInsert _ _ _ _ h)

theorem addToGroup_self (fn : String) (g : Grid) :
    ∀ acc : List (String × List Grid), ∃ p ∈ addToGroup fn g acc, g ∈ p.2
  | [] => ⟨(fn, [g]), by simp [addToGroup], by simp⟩
  | (a, l) :: t => by
    by_cases h : a = fn
    · exact ⟨(a, l ++ [g]), by simp [addToGroup, h], by simp⟩
    · obtain ⟨p, hp, hg⟩ := addToGroup_self fn g t
      exact ⟨p, by simp [addToGroup, h]; exact Or.inr hp, hg⟩

theorem addToGroup_mono (fn : String) (g x : Grid) :
    ∀ acc : List (String × List Grid), (∃ p ∈ acc, x ∈ p.2) →
      ∃ p ∈ addToGroup fn g acc, x ∈ p.2
  | [], h => by
    obtain ⟨p, hp, _⟩ := h
    simp at hp
  | (a, l) :: t, h => by
    obtain ⟨p, hp, hx⟩ := h
    by_cases hafn : a = fn
    · rcases List.mem_cons.mp hp with rfl | hpt
      · exact ⟨(a, l ++ [g]), by simp [addToGroup, hafn], List.mem_append_left _ hx⟩
      · exact ⟨p, by simp [addToGroup, hafn]; exact Or.inr hpt, hx⟩
    · rcases List.mem_cons.mp hp with rfl | hpt
      · exact ⟨(a, l), by simp [addToGroup, hafn], hx⟩
      · obtain ⟨q, hq, hxq⟩ := addToGroup_mono fn g x t ⟨p, hpt, hx⟩
        exact ⟨q, by simp [addToGroup, hafn]; exact Or.inr hq, hxq⟩

theorem groupFold_mem :
    ∀ (gs : List Grid) (acc : List (String × List Grid)) (x : Grid),
      ((∃ fn, x ∈ gs ∧ x.filename = some fn) ∨ (∃ p ∈ acc, x ∈ p.2)) →
      ∃ p ∈ gs.foldl (fun acc g =>
          match g.filename with
          | none => acc
          | some fn => addToGroup fn g acc) acc, x ∈ p.2
  | [], acc, x, h => by
    rcases h with ⟨fn, hmem, _⟩ | h
    · simp at hmem
    · exact h
  | g :: gs, acc, x, h => by
    simp only [List.foldl]
    rcases h with ⟨fn, hmem, hfn⟩ | hacc
    · rcases List.mem_cons.mp hmem with rfl | hmem'
      · apply groupFold_mem gs _ x
        right
        rw [hfn]
        exact addToGroup_self fn x acc
      · exact groupFold_mem gs _ x (Or.inl ⟨fn, hmem', hfn⟩)
    · apply groupFold_mem gs _ x
      right
      cases hg : g.filename with
      | none => exact hacc
      | some fn => exact addToGroup_mono fn g x acc hacc

theorem mem_insertOff (x g : Grid) : ∀ l : List Grid, x ∈ insertOff g l ↔ x = g ∨ x ∈ l
  | [] => by simp [insertOff]
  | h :: t => by
    by_cases hlt : g.offset < h.offset
    · simp [insertOff, hlt]
    · rw [insertOff, if_neg hlt]
      simp only [List.mem_cons, mem_insertOff x g t]
      tauto

theorem mem_sortByOffset (x : Grid) : ∀ l : List Grid, x ∈ sortByOffset l ↔ x ∈ l
  | [] => by simp [sortByOffset]
  | g :: t => by
    show x ∈ insertOff g (sortByOffset t) ↔ _
    rw [mem_insertOff, mem_sortByOffset x t]
    exact (List.mem_cons).symm

section ChunkData

variable (fs : FS) (idx : DsIndex) (fields : List FieldKey)

theorem groupsFold_good (hsub : ∀ f ∈ fields, f ∈ idx.fieldOrder) :
    ∀ (groups : List (String × List Grid)) (data : List (Nat × List (FieldKey × List ℚ))),
      GoodData fields data →
      GoodData fields (groups.foldl (fun data p =>
        (readFileGrids (fs p.1) idx.bpr idx.fieldOrder fields (sortByOffset p.2) data 0).1)
        data)
  | [], _, h => h
  | p :: ps, data, h =>
    groupsFold_good hsub ps _
      (readFileGrids_good (fs p.1) idx.bpr idx.fieldOrder fields hsub (sortByOffset p.2)
        data 0 h)

theorem groupsFold_presence :
    ∀ (groups : List (String × List Grid)) (data : List (Nat × List (FieldKey × List ℚ)))
      (k : Nat),
      ((∃ p ∈ groups, ∃ g ∈ p.2, g.id = k) ∨ (alookup k data).isSome) →
      (alookup k (groups.foldl (fun data p =>
        (readFileGrids (fs p.1) idx.bpr idx.fieldOrder fields (sortByOffset p.2) data 0).1)
        data)).isSome
  | [], data, k, h => by
    rcases h with ⟨p, hp, _⟩ | h
    · simp at hp
    · exact h
  | q :: ps, data, k, h => by
    simp only [List.foldl]
    apply groupsFold_presence ps
    rcases h with ⟨p, hp, g, hg, hid⟩ | h
    · rcases List.mem_cons.mp hp with rfl | hp'
      · right
        exact readFileGrids_presence (fs p.1) idx.bpr idx.fieldOrder fields
          (sortByOffset p.2) data 0 k
          (Or.inl ⟨g, (mem_sortByOffset g p.2).mpr hg, hid⟩)
      · exact Or.inl ⟨p, hp', g, hg, hid⟩
    · right
      exact readFileGrids_presence (fs q.1) idx.bpr idx.fieldOrder fields
        (sortByOffset q.2) data 0 k (Or.inr h)

theorem read_chunk_data_good (c : Chunk) (hsub : ∀ f ∈ fields, f ∈ idx.fieldOrder) :
    GoodData fields (read_chunk_data fs idx c fields) := by
  unfold read_chunk_data
  by_cases hc : c.objs = []
  · rw [if_pos hc]
    intro p hp
    simp at hp
  · rw [if_neg hc]
    exact groupsFold_good fs idx fields hsub (groupByFile c.objs) [] (by intro p hp; simp at hp)

theorem read_chunk_data_presence (c : Chunk) (g : Grid) (hg : g ∈ c.objs)
    (hfn : g.filename ≠ none) :
    (alookup g.id (read_chunk_data fs idx c fields)).isSome := by
  unfold read_chunk_data
  rw [if_neg (by intro h; rw [h] at hg; simp at hg)]
  obtain ⟨fn, hfn'⟩ : ∃ fn, g.filename = some fn := by
    cases hv : g.filename with
    | none => exact absurd hv hfn
    | some fn => exact ⟨fn, rfl⟩
  obtain ⟨p, hp, hgp⟩ := groupFold_mem c.objs [] g (Or.inl ⟨fn, hg, hfn'⟩)
  exact groupsFold_presence fs idx fields (groupByFile c.objs) [] g.id
    (Or.inl ⟨p, hp, g, hgp, rfl⟩)

end ChunkData

/-! ## Claim C1: the fluid read fills each buffer exactly -/

theorem fluidFields_aux (sel : Selector) (g : Grid)
    (hsel : ∀ gr ds, (sel.selVals gr ds).length = sel.count gr) :
    ∀ (fl : List FieldKey) (gdata : List (FieldKey × List ℚ)) (rv : RV) (ind : Nat)
      (nd? : Option Nat),
      fl.Nodup →
      (∀ f ∈ fl, (alookup f gdata).isSome) →
      (∀ f ∈ fl, (alookup f rv).isSome) →
      (nd? = some (sel.count g) ∨ fl ≠ []) →
      ∃ gdata' rv',
        fluidFields sel g fl gdata rv ind nd? = .ok (gdata', rv', some (sel.count g)) ∧
        ∀ f, (alookup f rv').map List.length = (alookup f rv).map List.length
  | [], gdata, rv, ind, nd?, _, _, _, hnd => by
    rcases hnd with hnd | hnd
    · exact ⟨gdata, rv, by rw [hnd]; rfl, fun f => rfl⟩
    · exact absurd rfl hnd
  | f :: fl, gdata, rv, ind, nd?, hnodup, hgd, hrv, _ => by
    have hf : (alookup f gdata).isSome := hgd f (by simp)
    obtain ⟨ds, hds⟩ := Option.isSome_iff_exists.mp hf
    obtain ⟨gdata1, hpop, hpres⟩ := apop_eq_some_of_alookup f gdata ds hds
    have hfrv : (alookup f rv).isSome := hrv f (by simp)
    obtain ⟨buf, hbuf⟩ := Option.isSome_iff_exists.mp hfrv
    have hnodup' := List.nodup_cons.mp hnodup
    have hgd' : ∀ f' ∈ fl, (alookup f' gdata1).isSome := by
      intro f' hf'
      rw [hpres f' (fun he => hnodup'.1 (he ▸ hf'))]
      exact hgd f' (by simp [hf'])
    have hrv' : ∀ f' ∈ fl,
        (alookup f' (dictInsert f (writeAt buf ind (sel.selVals g ds)) rv)).isSome :=
      fun f' hf' => alookup_isSome_dictInsert _ _ _ _ (hrv f' (by simp [hf']))
    obtain ⟨gdata', rv', hrec, hlen⟩ := fluidFields_aux sel g hsel fl gdata1
      (dictInsert f (writeAt buf ind (sel.selVals g ds)) rv) ind
      (some (sel.selVals g ds).length) hnodup'.2 hgd' hrv'
      (Or.inl (by rw [hsel g ds]))
    refine ⟨gdata', rv', ?_, ?_⟩
    · unfold fluidFields
      rw [hpop, hbuf]
      dsimp only [gridSelect]
      exact hrec
    · intro f'
      rw [hlen f']
      by_cases hff' : f = f'
      · subst hff'
        rw [alookup_dictInsert_self, hbuf]
        simp [writeAt_length]
      · rw [alookup_dictInsert_ne _ _ _ _ hff']

theorem fluidGrids_ok (sel : Selector) (fields : List FieldKey)
    (hsel : ∀ gr ds, (sel.selVals gr ds).length = sel.count gr)
    (hfne : fields ≠ []) (hfnd : fields.Nodup) :
    ∀ (gs : List Grid) (data : List (Nat × List (FieldKey × List ℚ))) (rv : RV)
      (ind : Nat) (nd? : Option Nat),
      (gs.map Grid.id).Nodup →
      (∀ g ∈ gs, (alookup g.id data).isSome) →
      GoodData fields data →
      (∀ f ∈ fields, (alookup f rv).isSome) →
      ∃ rv' nd?',
        fluidGrids sel fields gs data rv ind nd? =
          .ok (rv', ind + (gs.map sel.count).sum, nd?') ∧
        ∀ f, (alookup f rv').map List.length = (alookup f rv).map List.length
  | [], data, rv, ind, nd?, _, _, _, _ =>
    ⟨rv, nd?, by simp [fluidGrids], fun f => rfl⟩
  | g :: gs, data, rv, ind, nd?, hids, hpres, hgood, hrv => by
    have hg : (alookup g.id data).isSome := hpres g (by simp)
    obtain ⟨gdata, hgdata⟩ := Option.isSome_iff_exists.mp hg
    have hcomp : ∀ f ∈ fields, (alookup f gdata).isSome :=
      hgood (g.id, gdata) (alookup_mem _ _ _ hgdata)
    obtain ⟨gdata', rv1, hff, hlen1⟩ :=
      fluidFields_aux sel g hsel fields gdata rv ind nd? hfnd hcomp hrv (Or.inr hfne)
    have hids' : g.id ∉ List.map Grid.id gs ∧ (List.map Grid.id gs).Nodup := by
      rw [List.map_cons, List.nodup_cons] at hids
      exact hids
    have hrv1 : ∀ f ∈ fields, (alookup f rv1).isSome := by
      intro f hf
      have := hlen1 f
      have h2 := hrv f hf
      obtain ⟨b, hb⟩ := Option.isSome_iff_exists.mp h2
      rw [hb] at this
      cases hb1 : alookup f rv1 with
      | none => rw [hb1] at this; simp at this
      | some _ => simp [hb1]
    have hpres' : ∀ g' ∈ gs, (alookup g'.id (eraseKey g.id data)).isSome := by
      intro g' hg'
      rw [alookup_eraseKey_ne g.id g'.id data
        (fun he => hids'.1 (by rw [← he]; exact List.mem_map_of_mem Grid.id hg'))]
      exact hpres g' (by simp [hg'])
    have hgood' : GoodData fields (eraseKey g.id data) :=
      fun p hp f hf => hgood p (mem_eraseKey g.id p data hp) f hf
    obtain ⟨rv', nd?', hrec, hlen2⟩ := fluidGrids_ok sel fields hsel hfne hfnd gs
      (eraseKey g.id data) rv1 (ind + sel.count g) (some (sel.count g))
      hids'.2 hpres' hgood' hrv1
    refine ⟨rv', nd?', ?_, fun f => (hlen2 f).trans (hlen1 f)⟩
    unfold fluidGrids
    rw [hgdata]
    dsimp only
    rw [hff]
    dsimp only
    rw [hrec]
    have harith : ind + sel.count g + (gs.map sel.count).sum
        = ind + ((g :: gs).map sel.count).sum := by
      simp [Nat.add_assoc]
    rw [harith]

theorem fluidChunks_ok (fs : FS) (idx : DsIndex) (sel : Selector) (fields : List FieldKey)
    (hsel : ∀ gr ds, (sel.selVals gr ds).length = sel.count gr)
    (hfne : fields ≠ []) (hfnd : fields.Nodup)
    (hsub : ∀ f ∈ fields, f ∈ idx.fieldOrder) :
    ∀ (cs : List Chunk) (rv : RV) (ind : Nat) (nd? : Option Nat),
      (∀ c ∈ cs, ∀ g ∈ c.objs, g.filename ≠ none) →
      (∀ c ∈ cs, (c.objs.map Grid.id).Nodup) →
      (∀ f ∈ fields, (alookup f rv).isSome) →
      ∃ rv' nd?',
        fluidChunks fs idx sel fields cs rv ind nd? =
          .ok (rv', ind + ((cs.flatMap (fun c => c.objs)).map sel.count).sum, nd?') ∧
        ∀ f, (alookup f rv').map List.length = (alookup f rv).map List.length
  | [], rv, ind, nd?, _, _, _ => ⟨rv, nd?, by simp [fluidChunks], fun f => rfl⟩
  | c :: cs, rv, ind, nd?, hfile, hids, hrv => by
    have hpres : ∀ g ∈ c.objs, (alookup g.id (read_chunk_data fs idx c fields)).isSome :=
      fun g hg => read_chunk_data_presence fs idx fields c g hg
        (hfile c (by simp) g hg)
    have hgood : GoodData fields (read_chunk_data fs idx c fields) :=
      read_chunk_data_good fs idx fields c hsub
    obtain ⟨rv1, nd1, hgr, hlen1⟩ := fluidGrids_ok sel fields hsel hfne hfnd c.objs
      (read_chunk_data fs idx c fields) rv ind nd?
      (hids c (by simp)) hpres hgood hrv
    have hrv1 : ∀ f ∈ fields, (alookup f rv1).isSome := by
      intro f hf
      have := hlen1 f
      obtain ⟨b, hb⟩ := Option.isSome_iff_exists.mp (hrv f hf)
      rw [hb] at this
      cases hb1 : alookup f rv1 with
      | none => rw [hb1] at this; simp at this
      | some _ => simp [hb1]
    obtain ⟨rv', nd?', hrec, hlen2⟩ := fluidChunks_ok fs idx sel fields hsel hfne hfnd
      hsub cs rv1 (ind + (c.objs.map sel.count).sum) nd1
      (fun c' hc' => hfile c' (by simp [hc'])) (fun c' hc' => hids c' (by simp [hc'])) hrv1
    refine ⟨rv', nd?', ?_, fun f => (hlen2 f).trans (hlen1 f)⟩
    unfold fluidChunks
    rw [hgr]
    dsimp only
    rw [hrec]
    have harith : ind + (c.objs.map sel.count).sum
          + ((cs.flatMap (fun c => c.objs)).map sel.count).sum
        = ind + (((c :: cs).flatMap (fun c => c.objs)).map sel.count).sum := by
      simp [List.flatMap_cons, Nat.add_assoc]
    rw [harith]

/-- Claim C1, counterexample: The claim quantifies over *every* chunk
sequence, but a chunk sequence containing a grid with a null file path (which
the spec's data model allows, and which selects zero cells, so the summed
size is 0) makes `_read_fluid_selection` raise `KeyError` instead of
returning the mapping. -/
theorem c1_counterexample :
    read_fluid_selection (fun _ => []) ⟨[("boxlib", "density")], 8⟩
        [⟨[⟨5, none, 0, (1, 1, 1), 0, 1⟩]⟩]
        ⟨"SphereSelector", fun _ => 0, fun _ _ => [], fun _ _ _ _ => none⟩
        [("boxlib", "density")] 0 = .error .keyError := rfl

/-- Claim C1, amended: For every chunk sequence *whose grids all have a
non-null file path*, selector, non-empty duplicate-free set of
fluid-namespace field keys drawn from the dataset's (exhaustive) field-order
table, with per-chunk grid ids distinct (the spec's "opaque identifier used
as a map key") and the external `select` writing exactly its reported count,
and a caller-supplied `size` equal to the number of selected cells summed
over all grids: `_read_fluid_selection` returns a mapping with one length-
`size` float64 buffer per requested field, and the total number of values
written (the sum over all grids of the counts returned by `select`,
accumulated in the global index) equals `size` exactly — no over- or
under-fill, including grids with zero matching cells. -/
theorem c1_exact_fill (fs : FS) (idx : DsIndex) (chunks : List Chunk) (sel : Selector)
    (fields : List FieldKey) (size : Nat)
    (hfne : fields ≠ [])
    (hfb : ∀ fk ∈ fields, fk.1 = "boxlib")
    (hfnd : fields.Nodup)
    (hsub : ∀ fk ∈ fields, fk ∈ idx.fieldOrder)
    (hfile : ∀ c ∈ chunks, ∀ g ∈ c.objs, g.filename ≠ none)
    (hids : ∀ c ∈ chunks, (c.objs.map Grid.id).Nodup)
    (hsel : ∀ g ds, (sel.selVals g ds).length = sel.count g)
    (hsize : size = ((chunks.flatMap (fun c => c.objs)).map sel.count).sum) :
    ∃ rv nd?,
      fluidChunks fs idx sel fields chunks
          (fields.map (fun f => (f, List.replicate size (0 : ℚ)))) 0 none
        = .ok (rv, size, nd?) ∧
      read_fluid_selection fs idx chunks sel fields size = .ok rv ∧
      ∀ f ∈ fields, ∃ buf, alookup f rv = some buf ∧ buf.length = size := by
  have hany : ¬(fields.any (fun fk => fk.1 ≠ "boxlib") = true) := by
    rw [List.any_eq_true]
    rintro ⟨fk, hfk, hne⟩
    exact (of_decide_eq_true hne) (hfb fk hfk)
  have hrv0 : ∀ f ∈ fields,
      alookup f (fields.map (fun f => (f, List.replicate size (0 : ℚ))))
        = some (List.replicate size 0) :=
    fun f hf => alookup_map_const _ f fields hf
  obtain ⟨rv, nd?, hch, hlen⟩ := fluidChunks_ok fs idx sel fields hsel hfne hfnd hsub
    chunks (fields.map (fun f => (f, List.replicate size (0 : ℚ)))) 0 none hfile hids
    (fun f hf => by rw [hrv0 f hf]; rfl)
  have hsz : 0 + ((chunks.flatMap (fun c => c.objs)).map sel.count).sum = size := by
    rw [hsize, Nat.zero_add]
  rw [hsz] at hch
  refine ⟨rv, nd?, hch, ?_, ?_⟩
  · unfold read_fluid_selection
    rw [if_neg hany]
    dsimp only
    rw [hch]
  · intro f hf
    have hl := hlen f
    rw [hrv0 f hf] at hl
    cases hb : alookup f rv with
    | none => rw [hb] at hl; simp at hl
    | some buf =>
      rw [hb] at hl
      simp only [Option.map_some'] at hl
      refine ⟨buf, rfl, ?_⟩
      have := Option.some.inj hl
      simpa using this

/-- Witness for the amended C1: one chunk, one grid with a file, one field,
a selector selecting one cell, `size = 1`. -/
theorem c1_witness :
    ∃ rv nd?,
      fluidChunks (fun _ => [3]) ⟨[("boxlib", "density")], 8⟩
          ⟨"SphereSelector", fun _ => 1, fun _ _ => [5],
            fun _ _ _ _ => none⟩
          [("boxlib", "density")]
          [⟨[⟨1, some "level_0/Cell_D_0000", 0, (1, 1, 1), 0, 1⟩]⟩]
          ([("boxlib", "density")].map (fun f => (f, List.replicate 1 (0 : ℚ)))) 0 none
        = .ok (rv, 1, nd?) ∧
      read_fluid_selection (fun _ => [3]) ⟨[("boxlib", "density")], 8⟩
          [⟨[⟨1, some "level_0/Cell_D_0000", 0, (1, 1, 1), 0, 1⟩]⟩]
          ⟨"SphereSelector", fun _ => 1, fun _ _ => [5],
            fun _ _ _ _ => none⟩
          [("boxlib", "density")] 1 = .ok rv ∧
      ∀ f ∈ [(("boxlib", "density") : FieldKey)], ∃ buf, alookup f rv = some buf ∧
        buf.length = 1 :=
  c1_exact_fill (fun _ => [3]) ⟨[("boxlib", "density")], 8⟩
    [⟨[⟨1, some "level_0/Cell_D_0000", 0, (1, 1, 1), 0, 1⟩]⟩]
    ⟨"SphereSelector", fun _ => 1, fun _ _ => [5], fun _ _ _ _ => none⟩
    [("boxlib", "density")] 1
    (by decide) (by decide) (by decide) (by decide) (by decide) (by decide)
    (fun g ds => rfl) (by decide)

end Boxlib
